import Mathlib

/-!
Shallow embedding of `src/server.js`, a minimal Express CRUD API for stock
ticker records backed by a MongoDB collection. The collection is modelled as a
list of records in insertion order (mongoose `findOne` / `findOneAndUpdate` /
`findOneAndDelete` act on the first match; `save` of a new document appends).
Wall-clock time (`Date.now()`), the external quote service response, and
store-save success are explicit parameters of the handlers. Numeric JSON
values are modelled as `Int`; a JS field that may be `undefined` is an
`Option`.
-/

namespace StockServer

/-- A stored stock document. `name`, `price` and `change` may be `undefined`
in JS (e.g. when the search route stores a malformed upstream response), so
they are `Option`-valued; `symbol` is always a string and `lastUpdated` a
timestamp. -/
structure StockRecord where
  symbol : String
  name : Option String
  price : Option Int
  change : Option Int
  lastUpdated : Nat
deriving DecidableEq, Repr

/-- The stock collection, in insertion order. -/
abbrev Store := List StockRecord

/-- `Stock.findOne({ symbol })`: first record whose `symbol` field equals
`sym` exactly (case-sensitive). -/
def findOneSymbol (st : Store) (sym : String) : Option StockRecord :=
  st.find? (fun r => r.symbol == sym)

/-- Mutating the first record matching `sym` in place and saving it
(`stock.price = ...; await stock.save()` on a `findOne` result, or
`findOneAndUpdate`). Later records are untouched; order is preserved. -/
def updateFirst (st : Store) (sym : String) (f : StockRecord → StockRecord) : Store :=
  match st with
  | [] => []
  | r :: rs => if r.symbol == sym then f r :: rs else r :: updateFirst rs sym f

/-- `Stock.findOneAndDelete({ symbol })`: remove the first matching record. -/
def removeFirst (st : Store) (sym : String) : Store :=
  match st with
  | [] => []
  | r :: rs => if r.symbol == sym then rs else r :: removeFirst rs sym

/-- Number of records whose `symbol` equals `sym`. -/
def countSymbol (st : Store) (sym : String) : Nat :=
  (st.filter (fun r => r.symbol == sym)).length

/-- JSON body of a response: a single record, an error object
`\x7b error: string \x7d`, or a message object `\x7b message: string \x7d`. -/
inductive RespBody where
  | record (r : StockRecord)
  | errorMsg (e : String)
  | message (m : String)
deriving DecidableEq, Repr

/-- An HTTP response: status code plus JSON body (`res.json` defaults to
status 200). -/
structure Response where
  status : Nat
  body : RespBody
deriving DecidableEq, Repr

/-- Request body of `POST /api/stocks`; each field may be absent
(`undefined`). -/
structure PostBody where
  symbol : Option String
  name : Option String
  price : Option Int
  change : Option Int
deriving DecidableEq, Repr

/-- JS truthiness of a string-or-undefined value: `undefined` and the empty
string are falsy (`!symbol`, `!name` in the POST validation). -/
def truthy : Option String → Bool
  | none => false
  | some s => !(s == "")

/-- `POST /api/stocks` handler (server.js lines 38-66). Validates
`!symbol || !name || price === undefined || change === undefined` → 400;
otherwise updates the existing record's `price`, `change`, `lastUpdated`
(note: not `name`) and replies 200, or creates a new record (with
`lastUpdated` defaulting to now, per the Stock model) and replies 201. -/
def postHandler (st : Store) (b : PostBody) (now : Nat) : Response × Store :=
  if truthy b.symbol && truthy b.name && b.price.isSome && b.change.isSome then
    let sym := b.symbol.getD ""
    let nm := b.name.getD ""
    let pr := b.price.getD 0
    let ch := b.change.getD 0
    match findOneSymbol st sym with
    | some r =>
      let r' : StockRecord :=
        { r with price := some pr, change := some ch, lastUpdated := now }
      (⟨200, .record r'⟩,
       updateFirst st sym
         (fun q => { q with price := some pr, change := some ch, lastUpdated := now }))
    | none =>
      let r : StockRecord := ⟨sym, some nm, some pr, some ch, now⟩
      (⟨201, .record r⟩, st ++ [r])
  else
    (⟨400, .errorMsg "Missing required fields"⟩, st)

/-- JS `String.prototype.toUpperCase()` on ASCII ticker strings
(`req.params.symbol.toUpperCase()`). -/
def upperAscii (s : String) : String := ⟨s.data.map Char.toUpper⟩

/-- Request body of `PUT /api/stocks/:symbol`. -/
structure PutBody where
  price : Option Int
  change : Option Int
deriving DecidableEq, Repr

/-- `PUT /api/stocks/:symbol` handler (server.js lines 72-91). Requires
`price` and `change` defined (400 otherwise); looks up
`symbol: req.params.symbol.toUpperCase()` via `findOneAndUpdate` with
`new: true` and no upsert: 404 if absent, else overwrite `price`, `change`,
`lastUpdated` and reply 200 with the updated record. -/
def putHandler (st : Store) (symParam : String) (b : PutBody) (now : Nat) :
    Response × Store :=
  match b.price, b.change with
  | some pr, some ch =>
    let sym := upperAscii symParam
    match findOneSymbol st sym with
    | some r =>
      let r' : StockRecord :=
        { r with price := some pr, change := some ch, lastUpdated := now }
      (⟨200, .record r'⟩,
       updateFirst st sym
         (fun q => { q with price := some pr, change := some ch, lastUpdated := now }))
    | none => (⟨404, .errorMsg "Stock not found"⟩, st)
  | _, _ => (⟨400, .errorMsg "Missing price or change fields"⟩, st)

/-- `DELETE /api/stocks/:symbol` handler (server.js lines 97-108).
`findOneAndDelete` on the uppercased symbol: 404 if absent, else 200 with
the confirmation message built from the uppercased path parameter. -/
def deleteHandler (st : Store) (symParam : String) : Response × Store :=
  let sym := upperAscii symParam
  match findOneSymbol st sym with
  | some _ =>
    (⟨200, .message ("Stock " ++ sym ++ " deleted successfully")⟩,
     removeFirst st sym)
  | none => (⟨404, .errorMsg "Stock not found"⟩, st)

/-- Body of the external quote service response as destructured on
server.js line 120: `const \x7b name, price, change \x7d = apiResponse.data`.
Destructuring never fails; absent fields are simply `undefined`. -/
structure QuoteResp where
  name : Option String
  price : Option Int
  change : Option Int
deriving DecidableEq, Repr

/-- Outcome of `axios.get(...)`: `.ok` carries the response data, `.error`
models a network error, timeout or non-2xx (axios throws). -/
abbrev FetchResult := Except Unit QuoteResp

/-- Whether the outbound quote request threw. -/
def fetchFails : FetchResult → Bool
  | .error _ => true
  | .ok _ => false

/-- `GET /api/search/:symbol` handler (server.js lines 114-140). Uppercases
the symbol, fetches the quote (any throw, including a later store failure
modelled by `saveOk = false`, falls into the catch-all 500 with error
"Stock not found or API error"), then stores the destructured fields: update
`price`, `change`, `lastUpdated` of an existing record, or create a new one,
and reply 200 with the record. No validation of the response shape. -/
def searchHandler (st : Store) (symParam : String) (fetch : FetchResult)
    (saveOk : Bool) (now : Nat) : Response × Store :=
  let sym := upperAscii symParam
  match fetch with
  | .error _ => (⟨500, .errorMsg "Stock not found or API error"⟩, st)
  | .ok q =>
    if saveOk then
      match findOneSymbol st sym with
      | some r =>
        let r' : StockRecord :=
          { r with price := q.price, change := q.change, lastUpdated := now }
        (⟨200, .record r'⟩,
         updateFirst st sym
           (fun p => { p with price := q.price, change := q.change, lastUpdated := now }))
      | none =>
        let r : StockRecord := ⟨sym, q.name, q.price, q.change, now⟩
        (⟨200, .record r⟩, st ++ [r])
    else (⟨500, .errorMsg "Stock not found or API error"⟩, st)

/-! ### Helper lemmas about the store model -/

/-- Updating with a symbol-preserving function keeps the first match findable
and applies the function to it. -/
theorem findOneSymbol_updateFirst (st : Store) (sym : String)
    (f : StockRecord → StockRecord) (hf : ∀ r, (f r).symbol = r.symbol) :
    findOneSymbol (updateFirst st sym f) sym = (findOneSymbol st sym).map f := by
  induction st with
  | nil => simp [findOneSymbol, updateFirst]
  | cons r rs ih =>
    by_cases h : r.symbol == sym
    · simp [findOneSymbol, updateFirst, h, List.find?, hf]
    · simp only [updateFirst, h, if_false, findOneSymbol, List.find?, hf] at *
      simpa [h] using ih

/-- Updating a symbol that does not occur in the store is a no-op. -/
theorem updateFirst_absent (st : Store) (sym : String)
    (f : StockRecord → StockRecord) (h : findOneSymbol st sym = none) :
    updateFirst st sym f = st := by
  induction st with
  | nil => rfl
  | cons r rs ih =>
    simp only [findOneSymbol, List.find?] at h
    cases hr : (r.symbol == sym) with
    | true => simp [hr] at h
    | false =>
      simp only [hr] at h
      simp [updateFirst, hr, ih h]

/-- Updating across an append when the symbol is absent from the front part. -/
theorem updateFirst_append_absent (st : Store) (sym : String) (r : StockRecord)
    (f : StockRecord → StockRecord) (h : findOneSymbol st sym = none)
    (hr : r.symbol = sym) :
    updateFirst (st ++ [r]) sym f = st ++ [f r] := by
  induction st with
  | nil => simp [updateFirst, hr]
  | cons q qs ih =>
    simp only [findOneSymbol, List.find?] at h
    cases hq : (q.symbol == sym) with
    | true => simp [hq] at h
    | false =>
      simp only [hq] at h
      simp [updateFirst, hq, ih h]

/-- Two successive symbol-preserving updates collapse to their composition. -/
theorem updateFirst_updateFirst (st : Store) (sym : String)
    (f g : StockRecord → StockRecord) (hf : ∀ r, (f r).symbol = r.symbol) :
    updateFirst (updateFirst st sym f) sym g = updateFirst st sym (fun r => g (f r)) := by
  induction st with
  | nil => rfl
  | cons r rs ih =>
    by_cases h : r.symbol == sym
    · have hfr : ((f r).symbol == sym) = true := by
        simp only [hf]; exact h
      simp [updateFirst, h, hfr]
    · simp [updateFirst, h, ih]

/-- Finding in an appended store when the front part has no match. -/
theorem findOneSymbol_append (st : Store) (sym : String) (r : StockRecord)
    (h : findOneSymbol st sym = none) :
    findOneSymbol (st ++ [r]) sym = if r.symbol == sym then some r else none := by
  induction st with
  | nil =>
    simp only [findOneSymbol, List.nil_append, List.find?]
    cases hr : (r.symbol == sym) <;> simp [hr]
  | cons q qs ih =>
    simp only [findOneSymbol, List.find?] at h
    cases hq : (q.symbol == sym) with
    | true => simp [hq] at h
    | false =>
      simp only [hq] at h
      simp only [findOneSymbol, List.cons_append, List.find?, hq]
      exact ih h

/-- A symbol-preserving update does not change how many records carry each
symbol. -/
theorem countSymbol_updateFirst (st : Store) (sym s : String)
    (f : StockRecord → StockRecord) (hf : ∀ r, (f r).symbol = r.symbol) :
    countSymbol (updateFirst st sym f) s = countSymbol st s := by
  induction st with
  | nil => rfl
  | cons r rs ih =>
    by_cases h : r.symbol == sym
    · simp [countSymbol, updateFirst, h, List.filter, hf] at *
      cases hrs : (r.symbol == s) <;> simp [hrs, ih]
    · simp only [countSymbol, updateFirst, h, if_false, List.filter] at *
      cases hrs : (r.symbol == s) <;> simp [hrs, ih]

/-- Appending a record with the given symbol adds one to its count. -/
theorem countSymbol_append_same (st : Store) (r : StockRecord) (s : String)
    (h : r.symbol = s) :
    countSymbol (st ++ [r]) s = countSymbol st s + 1 := by
  simp [countSymbol, List.filter_append, h]

/-- No record with the symbol is findable exactly when its count is zero. -/
theorem findOneSymbol_eq_none_iff_count (st : Store) (sym : String) :
    findOneSymbol st sym = none ↔ countSymbol st sym = 0 := by
  induction st with
  | nil => simp [findOneSymbol, countSymbol]
  | cons r rs ih =>
    simp only [findOneSymbol, countSymbol, List.find?, List.filter] at *
    cases hr : (r.symbol == sym) <;> simp [hr, ih]

/-- Removing the first match decrements the count of that symbol by one when
a match exists. -/
theorem countSymbol_removeFirst (st : Store) (sym : String)
    (h : (findOneSymbol st sym).isSome = true) :
    countSymbol (removeFirst st sym) sym = countSymbol st sym - 1 := by
  induction st with
  | nil => simp [findOneSymbol, List.find?] at h
  | cons r rs ih =>
    simp only [findOneSymbol, List.find?] at h
    cases hr : (r.symbol == sym) with
    | true => simp [removeFirst, countSymbol, hr, List.filter]
    | false =>
      simp only [hr] at h
      simp only [removeFirst, hr, if_false, countSymbol, List.filter] at *
      simpa [hr] using ih h

/-! ### Claim C1: POST upsert on an existing symbol -/

def c1Store : Store := [⟨"AAPL", some "Old Name", some 100, some 1, 5⟩]

def c1Body : PostBody := ⟨some "AAPL", some "New Name", some 150, some 2⟩

/-- C1 counterexample: the claim says POST on an existing symbol overwrites
all three of `name`, `price`, `change`. In fact the update path (server.js
lines 50-52) never assigns `name`: posting a body with name "New Name" onto a
record named "Old Name" leaves the stored name "Old Name" (while price,
change and lastUpdated are refreshed and the reply is 200). -/
theorem C1_counterexample :
    c1Body.name = some "New Name" ∧
    (postHandler c1Store c1Body 10).1.status = 200 ∧
    findOneSymbol (postHandler c1Store c1Body 10).2 "AAPL" =
      some ⟨"AAPL", some "Old Name", some 150, some 2, 10⟩ := by
  decide

/-- C1 (amended): for POST on a symbol that already has a record, the handler
overwrites `price` and `change`, refreshes `lastUpdated`, and returns the
updated record with status 200 — but leaves the record's `name` unchanged
(the body's `name` is ignored on the update path). -/
theorem C1_amended (st : Store) (sym nm : String) (pr ch : Int) (now : Nat)
    (r : StockRecord) (hsym : sym ≠ "") (hnm : nm ≠ "")
    (hfind : findOneSymbol st sym = some r) :
    (postHandler st ⟨some sym, some nm, some pr, some ch⟩ now).1 =
      ⟨200, .record { r with price := some pr, change := some ch, lastUpdated := now }⟩ ∧
    findOneSymbol (postHandler st ⟨some sym, some nm, some pr, some ch⟩ now).2 sym =
      some { r with price := some pr, change := some ch, lastUpdated := now } ∧
    ({ r with price := some pr, change := some ch, lastUpdated := now } : StockRecord).name
      = r.name := by
  have hrec := findOneSymbol_updateFirst st sym
    (fun q => { q with price := some pr, change := some ch, lastUpdated := now })
    (fun q => rfl)
  simp [postHandler, truthy, hsym, hnm, hfind, hrec]

/-- Concrete instantiation of `C1_amended`. -/
theorem C1_amended_witness :
    (postHandler c1Store c1Body 10).1 =
      ⟨200, .record ⟨"AAPL", some "Old Name", some 150, some 2, 10⟩⟩ ∧
    findOneSymbol (postHandler c1Store c1Body 10).2 "AAPL" =
      some ⟨"AAPL", some "Old Name", some 150, some 2, 10⟩ := by
  have h := C1_amended c1Store "AAPL" "New Name" 150 2 10
    ⟨"AAPL", some "Old Name", some 100, some 1, 5⟩ (by decide) (by decide) (by decide)
  exact ⟨h.1, h.2.1⟩

/-! ### Claim C3: external responses lacking required fields -/

def c3Store : Store := [⟨"AAPL", some "Apple Inc", some 100, some 1, 5⟩]

def c3Quote : QuoteResp := ⟨none, some 5, some 1⟩

/-- C3 counterexample: the claim says a quote response lacking `name`,
`price` or `change` makes the fetch fail (a MalformedResponse folded into a
500). In fact server.js line 120 destructures without any shape check: with
an upstream body lacking `name`, the search handler still succeeds with 200
and updates the stored record — no error response is produced. -/
theorem C3_counterexample :
    c3Quote.name = none ∧
    (searchHandler c3Store "AAPL" (.ok c3Quote) true 10).1.status = 200 ∧
    (searchHandler c3Store "AAPL" (.ok c3Quote) true 10).1.body ≠
      .errorMsg "Stock not found or API error" := by
  decide

/-- C3 (amended): the search route performs no validation of the external
response shape: missing fields are destructured as `undefined` and the
handler proceeds to store them. Whenever the HTTP call and the store succeed
it replies 200, creating a record carrying the (possibly absent) fields, or
overwriting `price`/`change` of an existing record with them. -/
theorem C3_amended (st : Store) (sp : String) (q : QuoteResp) (now : Nat) :
    (searchHandler st sp (.ok q) true now).1.status = 200 ∧
    (findOneSymbol st (upperAscii sp) = none →
      findOneSymbol (searchHandler st sp (.ok q) true now).2 (upperAscii sp) =
        some ⟨upperAscii sp, q.name, q.price, q.change, now⟩) ∧
    (∀ r, findOneSymbol st (upperAscii sp) = some r →
      findOneSymbol (searchHandler st sp (.ok q) true now).2 (upperAscii sp) =
        some { r with price := q.price, change := q.change, lastUpdated := now }) := by
  refine ⟨?_, ?_, ?_⟩
  · cases hf : findOneSymbol st (upperAscii sp) with
    | some r => simp [searchHandler, hf]
    | none => simp [searchHandler, hf]
  · intro hf
    have happ := findOneSymbol_append st (upperAscii sp)
      ⟨upperAscii sp, q.name, q.price, q.change, now⟩ hf
    simp only [searchHandler, hf]
    simpa using happ
  · intro r hf
    have hrec := findOneSymbol_updateFirst st (upperAscii sp)
      (fun p => { p with price := q.price, change := q.change, lastUpdated := now })
      (fun p => rfl)
    simp [searchHandler, hf, hrec]

/-- Concrete instantiation of `C3_amended`. -/
theorem C3_amended_witness :
    (searchHandler ([] : Store) "msft" (.ok c3Quote) true 4).1.status = 200 ∧
    findOneSymbol (searchHandler ([] : Store) "msft" (.ok c3Quote) true 4).2 "MSFT" =
      some ⟨"MSFT", none, some 5, some 1, 4⟩ := by
  have h := C3_amended ([] : Store) "msft" c3Quote 4
  refine ⟨h.1, ?_⟩
  have h2 := h.2.1 (by decide)
  have hup : upperAscii "msft" = "MSFT" := by decide
  rw [hup] at h2
  exact h2

/-! ### Claim C4: POST 400 condition -/

def c4Body : PostBody := ⟨some "", some "Apple", some 150, some 2⟩

/-- C4 counterexample: the claim says POST replies 400 if and only if a
field is missing from the body. But a body whose four fields are all present
(defined), with `symbol` the empty string, is still rejected with 400,
because `symbol` is tested by truthiness (`!symbol`), not definedness. -/
theorem C4_counterexample :
    c4Body.symbol.isSome = true ∧ c4Body.name.isSome = true ∧
    c4Body.price.isSome = true ∧ c4Body.change.isSome = true ∧
    (postHandler [] c4Body 0).1.status = 400 := by
  decide

/-- C4 (amended): POST /api/stocks returns 400 if and only if `symbol` or
`name` is undefined or the empty string, or `price` or `change` is
undefined; `price` and `change` count as present whenever they are defined,
including falsy values such as 0. -/
theorem C4_amended (st : Store) (b : PostBody) (now : Nat) :
    ((postHandler st b now).1.status = 400) ↔
      (b.symbol = none ∨ b.symbol = some "" ∨ b.name = none ∨ b.name = some "" ∨
       b.price = none ∨ b.change = none) := by
  obtain ⟨s, n, p, c⟩ := b
  cases s with
  | none => simp [postHandler, truthy]
  | some sv =>
    cases n with
    | none => simp [postHandler, truthy]
    | some nv =>
      cases p with
      | none => simp [postHandler, truthy]
      | some pv =>
        cases c with
        | none => simp [postHandler, truthy]
        | some cv =>
          by_cases hs : sv = ""
          · subst hs; simp [postHandler, truthy]
          · by_cases hn : nv = ""
            · subst hn; simp [postHandler, truthy, hs]
            · cases hf : findOneSymbol st sv with
              | some r => simp [postHandler, truthy, hs, hn, hf]
              | none => simp [postHandler, truthy, hs, hn, hf]

/-! ### Claim C10: truthiness of symbol/name vs definedness of price/change -/

/-- C10: POST rejects with 400 any body whose `symbol` or `name` is falsy —
absent or present-but-empty-string — because those two fields are tested by
truthiness; `price` and `change` are accepted whenever defined, even when
falsy (0). -/
theorem C10_truthiness (st : Store) (now : Nat) (sym nm : String) (pr ch : Int) :
    (postHandler st ⟨some "", some nm, some pr, some ch⟩ now).1.status = 400 ∧
    (postHandler st ⟨some sym, some "", some pr, some ch⟩ now).1.status = 400 ∧
    (postHandler st ⟨none, some nm, some pr, some ch⟩ now).1.status = 400 ∧
    (postHandler st ⟨some sym, none, some pr, some ch⟩ now).1.status = 400 ∧
    (sym ≠ "" → nm ≠ "" →
      (postHandler st ⟨some sym, some nm, some 0, some 0⟩ now).1.status ≠ 400) := by
  refine ⟨by simp [postHandler, truthy], by simp [postHandler, truthy],
    by simp [postHandler, truthy], by simp [postHandler, truthy], ?_⟩
  intro hs hn
  cases hf : findOneSymbol st sym with
  | some r => simp [postHandler, truthy, hs, hn, hf]
  | none => simp [postHandler, truthy, hs, hn, hf]

/-- Concrete instantiation of `C10_truthiness`. -/
theorem C10_truthiness_witness :
    (postHandler [] ⟨some "", some "Apple", some 3, some 4⟩ 1).1.status = 400 ∧
    (postHandler [] ⟨some "AAPL", some "Apple", some 0, some 0⟩ 1).1.status ≠ 400 :=
  ⟨(C10_truthiness [] 1 "AAPL" "Apple" 3 4).1,
   (C10_truthiness [] 1 "AAPL" "Apple" 3 4).2.2.2.2 (by decide) (by decide)⟩

/-! ### Claim C2: case-insensitive symbol lookup on PUT/DELETE/search -/

/-- C2: PUT, DELETE and search all key their lookup (and every other use of
the path symbol) on `req.params.symbol.toUpperCase()`, so two requests whose
path symbols agree up to casing produce identical responses and identical
resulting stores — they locate and affect the same record. -/
theorem C2_case_insensitive (st : Store) (s1 s2 : String) (b : PutBody)
    (fetch : FetchResult) (saveOk : Bool) (now : Nat)
    (h : upperAscii s1 = upperAscii s2) :
    putHandler st s1 b now = putHandler st s2 b now ∧
    deleteHandler st s1 = deleteHandler st s2 ∧
    searchHandler st s1 fetch saveOk now = searchHandler st s2 fetch saveOk now := by
  refine ⟨?_, ?_, ?_⟩
  · obtain ⟨p, c⟩ := b
    cases p <;> cases c <;> simp [putHandler, h]
  · simp [deleteHandler, h]
  · cases fetch <;> simp [searchHandler, h]

def c2Store : Store := [⟨"AAPL", some "Apple", some 100, some 1, 5⟩]

def c2Quote : QuoteResp := ⟨some "Apple", some 7, some 2⟩

/-- Concrete instantiation of `C2_case_insensitive` at casings "aapl" and
"AAPL". -/
theorem C2_case_insensitive_witness :
    putHandler c2Store "aapl" ⟨some 5, some 1⟩ 9 =
      putHandler c2Store "AAPL" ⟨some 5, some 1⟩ 9 ∧
    deleteHandler c2Store "aapl" = deleteHandler c2Store "AAPL" ∧
    searchHandler c2Store "aapl" (.ok c2Quote) true 9 =
      searchHandler c2Store "AAPL" (.ok c2Quote) true 9 :=
  C2_case_insensitive c2Store "aapl" "AAPL" ⟨some 5, some 1⟩ (.ok c2Quote) true 9
    (by decide)

/-! ### Claim C5: PUT on an absent symbol -/

/-- C5: PUT with a valid body (price and change defined) on a symbol that has
no record in the store replies 404 and returns the store unchanged — in
particular `findOneAndUpdate` is called without upsert, so no record is ever
created. -/
theorem C5_put_absent (st : Store) (symParam : String) (pr ch : Int) (now : Nat)
    (habs : ∀ r ∈ st, r.symbol ≠ upperAscii symParam) :
    putHandler st symParam ⟨some pr, some ch⟩ now =
      (⟨404, .errorMsg "Stock not found"⟩, st) := by
  have hf : findOneSymbol st (upperAscii symParam) = none := by
    simp only [findOneSymbol, List.find?_eq_none, beq_iff_eq]
    exact habs
  simp [putHandler, hf]

def c5Store : Store := [⟨"MSFT", some "Microsoft", some 10, some 1, 1⟩]

/-- Concrete instantiation of `C5_put_absent`. -/
theorem C5_put_absent_witness :
    putHandler c5Store "aapl" ⟨some 5, some 1⟩ 3 =
      (⟨404, .errorMsg "Stock not found"⟩, c5Store) :=
  C5_put_absent c5Store "aapl" 5 1 3 (by decide)

/-! ### Claim C8: DELETE semantics -/

/-- C8: DELETE on an existing record replies 200 with message
"Stock SYMBOL deleted successfully" (SYMBOL the uppercased path parameter)
and removes one record with that symbol from the store; on an absent symbol
it replies 404 with the store unchanged. -/
theorem C8_delete (st : Store) (symParam : String) :
    ((findOneSymbol st (upperAscii symParam)).isSome = true →
      (deleteHandler st symParam).1 =
        ⟨200, .message ("Stock " ++ upperAscii symParam ++ " deleted successfully")⟩ ∧
      countSymbol (deleteHandler st symParam).2 (upperAscii symParam) =
        countSymbol st (upperAscii symParam) - 1) ∧
    (findOneSymbol st (upperAscii symParam) = none →
      deleteHandler st symParam = (⟨404, .errorMsg "Stock not found"⟩, st)) := by
  constructor
  · intro h
    cases hf : findOneSymbol st (upperAscii symParam) with
    | none => rw [hf] at h; simp at h
    | some r =>
      refine ⟨by simp [deleteHandler, hf], ?_⟩
      have hc := countSymbol_removeFirst st (upperAscii symParam) (by simp [hf])
      simpa [deleteHandler, hf] using hc
  · intro h
    simp [deleteHandler, h]

def c8Store : Store := [⟨"AAPL", some "Apple", some 1, some 1, 1⟩]

/-- Concrete instantiation of `C8_delete`: deleting AAPL via the lowercase
path "aapl" succeeds and empties its count; deleting from an empty store
gives 404. -/
theorem C8_delete_witness :
    (deleteHandler c8Store "aapl").1 =
      ⟨200, .message ("Stock " ++ upperAscii "aapl" ++ " deleted successfully")⟩ ∧
    countSymbol (deleteHandler c8Store "aapl").2 (upperAscii "aapl") =
      countSymbol c8Store (upperAscii "aapl") - 1 ∧
    deleteHandler ([] : Store) "aapl" = (⟨404, .errorMsg "Stock not found"⟩, []) :=
  ⟨((C8_delete c8Store "aapl").1 (by decide)).1,
   ((C8_delete c8Store "aapl").1 (by decide)).2,
   (C8_delete ([] : Store) "aapl").2 (by decide)⟩

/-! ### Claim C7: search error contract -/

/-- C7: the search route replies 500 with the JSON error string exactly
"Stock not found or API error" precisely when the quote fetch throws or the
store save fails; when both succeed it replies 200 whose body is the created
or updated record (findable in the resulting store under the uppercased
symbol). -/
theorem C7_search (st : Store) (sp : String) (fetch : FetchResult)
    (saveOk : Bool) (now : Nat) :
    ((searchHandler st sp fetch saveOk now).1 =
        ⟨500, .errorMsg "Stock not found or API error"⟩ ↔
      (fetchFails fetch = true ∨ saveOk = false)) ∧
    (fetchFails fetch = false → saveOk = true →
      (searchHandler st sp fetch saveOk now).1.status = 200 ∧
      ∃ r, (searchHandler st sp fetch saveOk now).1.body = .record r ∧
        findOneSymbol (searchHandler st sp fetch saveOk now).2 (upperAscii sp)
          = some r) := by
  constructor
  · cases fetch with
    | error e => simp [searchHandler, fetchFails]
    | ok q =>
      cases saveOk with
      | false => simp [searchHandler, fetchFails]
      | true =>
        cases hf : findOneSymbol st (upperAscii sp) with
        | some r => simp [searchHandler, fetchFails, hf]
        | none => simp [searchHandler, fetchFails, hf]
  · intro hok hsave
    cases fetch with
    | error e => simp [fetchFails] at hok
    | ok q =>
      subst hsave
      cases hf : findOneSymbol st (upperAscii sp) with
      | some r =>
        have hrec := findOneSymbol_updateFirst st (upperAscii sp)
          (fun p => { p with price := q.price, change := q.change, lastUpdated := now })
          (fun p => rfl)
        refine ⟨by simp [searchHandler, hf], ?_⟩
        refine ⟨{ r with price := q.price, change := q.change, lastUpdated := now },
          by simp [searchHandler, hf], ?_⟩
        simp [searchHandler, hf, hrec]
      | none =>
        have happ := findOneSymbol_append st (upperAscii sp)
          ⟨upperAscii sp, q.name, q.price, q.change, now⟩ hf
        refine ⟨by simp [searchHandler, hf], ?_⟩
        refine ⟨⟨upperAscii sp, q.name, q.price, q.change, now⟩,
          by simp [searchHandler, hf], ?_⟩
        simp only [searchHandler, hf]
        simpa using happ

def c7Quote : QuoteResp := ⟨some "Apple", some 5, some 1⟩

/-- Concrete instantiation of `C7_search`: a thrown fetch gives exactly the
500 error response; a successful fetch and save give 200. -/
theorem C7_search_witness :
    (searchHandler ([] : Store) "aapl" (.error ()) true 3).1 =
      ⟨500, .errorMsg "Stock not found or API error"⟩ ∧
    (searchHandler ([] : Store) "aapl" (.ok c7Quote) true 3).1.status = 200 :=
  ⟨(C7_search ([] : Store) "aapl" (.error ()) true 3).1.mpr (by decide),
   ((C7_search ([] : Store) "aapl" (.ok c7Quote) true 3).2 (by decide) (by decide)).1⟩

/-! ### Claim C9: lastUpdated strictly increases on mutation -/

def c9cStore : Store := [⟨"AAPL", some "Apple", some 1, some 1, 5⟩]

/-- C9 counterexample: the claim says no successful mutation leaves
`lastUpdated` equal to or less than its previous value. But each mutation
simply writes the current `Date.now()` reading, which has millisecond
resolution and only guarantees non-decrease: a PUT at a timestamp equal to
the record's current `lastUpdated` (two writes of the record within the same
millisecond) succeeds with 200 yet leaves `lastUpdated` exactly equal to its
previous value 5. -/
theorem C9_counterexample :
    (putHandler c9cStore "AAPL" ⟨some 7, some 2⟩ 5).1.status = 200 ∧
    findOneSymbol (putHandler c9cStore "AAPL" ⟨some 7, some 2⟩ 5).2 "AAPL" =
      some ⟨"AAPL", some "Apple", some 7, some 2, 5⟩ := by
  decide

/-- C9 (amended): on each of the three record mutations — POST upsert of an
existing symbol, PUT, and search-fetch over an existing record — the handler
overwrites `lastUpdated` with the mutation's `Date.now()` timestamp; the
stored `lastUpdated` therefore strictly increases whenever that timestamp
exceeds the record's current `lastUpdated` (the clock advanced since the last
write), while two mutations within the same millisecond leave it equal. -/
theorem C9_lastUpdated (st : Store) (r : StockRecord) (now : Nat)
    (sym nm : String) (pr ch : Int) (sp : String) (q : QuoteResp)
    (hlt : r.lastUpdated < now) :
    (sym ≠ "" → nm ≠ "" → findOneSymbol st sym = some r →
      ∃ r', findOneSymbol
          (postHandler st ⟨some sym, some nm, some pr, some ch⟩ now).2 sym
        = some r' ∧ r.lastUpdated < r'.lastUpdated) ∧
    (findOneSymbol st (upperAscii sp) = some r →
      ∃ r', findOneSymbol (putHandler st sp ⟨some pr, some ch⟩ now).2 (upperAscii sp)
        = some r' ∧ r.lastUpdated < r'.lastUpdated) ∧
    (findOneSymbol st (upperAscii sp) = some r →
      ∃ r', findOneSymbol
          (searchHandler st sp (.ok q) true now).2 (upperAscii sp)
        = some r' ∧ r.lastUpdated < r'.lastUpdated) := by
  refine ⟨?_, ?_, ?_⟩
  · intro hs hn hf
    have hrec := findOneSymbol_updateFirst st sym
      (fun p => { p with price := some pr, change := some ch, lastUpdated := now })
      (fun p => rfl)
    exact ⟨{ r with price := some pr, change := some ch, lastUpdated := now },
      by simp [postHandler, truthy, hs, hn, hf, hrec], hlt⟩
  · intro hf
    have hrec := findOneSymbol_updateFirst st (upperAscii sp)
      (fun p => { p with price := some pr, change := some ch, lastUpdated := now })
      (fun p => rfl)
    exact ⟨{ r with price := some pr, change := some ch, lastUpdated := now },
      by simp [putHandler, hf, hrec], hlt⟩
  · intro hf
    have hrec := findOneSymbol_updateFirst st (upperAscii sp)
      (fun p => { p with price := q.price, change := q.change, lastUpdated := now })
      (fun p => rfl)
    exact ⟨{ r with price := q.price, change := q.change, lastUpdated := now },
      by simp [searchHandler, hf, hrec], hlt⟩

def c9Store : Store := [⟨"AAPL", some "Apple", some 1, some 1, 5⟩]

/-- Concrete instantiation of `C9_lastUpdated` on the PUT path: the record's
lastUpdated of 5 strictly increases under a PUT at time 9. -/
theorem C9_lastUpdated_witness :
    ∃ r', findOneSymbol (putHandler c9Store "aapl" ⟨some 7, some 2⟩ 9).2
        (upperAscii "aapl") = some r' ∧ (5 : Nat) < r'.lastUpdated :=
  (C9_lastUpdated c9Store ⟨"AAPL", some "Apple", some 1, some 1, 5⟩ 9 "AAPL" "Apple"
    7 2 "aapl" ⟨none, none, none⟩ (by decide)).2.1 (by decide)

/-! ### Claim C6: POST idempotence -/

/-- C6: POSTing the same valid payload twice (at times t1 then t2) leaves
exactly the store that posting it once at t2 would leave: the second call
finds the record stored by the first and updates it in place, replies 200
(not 201), and the final store holds exactly one record for the symbol
(given the store's per-symbol uniqueness invariant held initially). -/
theorem C6_idempotent (st : Store) (sym nm : String) (pr ch : Int) (t1 t2 : Nat)
    (hsym : sym ≠ "") (hnm : nm ≠ "") (hcount : countSymbol st sym ≤ 1) :
    (postHandler (postHandler st ⟨some sym, some nm, some pr, some ch⟩ t1).2
        ⟨some sym, some nm, some pr, some ch⟩ t2).2 =
      (postHandler st ⟨some sym, some nm, some pr, some ch⟩ t2).2 ∧
    (postHandler (postHandler st ⟨some sym, some nm, some pr, some ch⟩ t1).2
        ⟨some sym, some nm, some pr, some ch⟩ t2).1.status = 200 ∧
    countSymbol
      (postHandler (postHandler st ⟨some sym, some nm, some pr, some ch⟩ t1).2
        ⟨some sym, some nm, some pr, some ch⟩ t2).2 sym = 1 := by
  cases hf : findOneSymbol st sym with
  | some r =>
    have hcnt1 : countSymbol st sym = 1 := by
      have h0 : ¬ countSymbol st sym = 0 := by
        intro h0
        rw [← findOneSymbol_eq_none_iff_count] at h0
        rw [hf] at h0
        cases h0
      omega
    have h1 : (postHandler st ⟨some sym, some nm, some pr, some ch⟩ t1).2 =
        updateFirst st sym
          (fun p => { p with price := some pr, change := some ch, lastUpdated := t1 }) := by
      simp [postHandler, truthy, hsym, hnm, hf]
    have hfind1 : findOneSymbol
        (updateFirst st sym
          (fun p => { p with price := some pr, change := some ch, lastUpdated := t1 })) sym
        = some { r with price := some pr, change := some ch, lastUpdated := t1 } := by
      rw [findOneSymbol_updateFirst st sym
        (fun p => { p with price := some pr, change := some ch, lastUpdated := t1 }) (fun p => rfl), hf]
      rfl
    have h2 : (postHandler (postHandler st ⟨some sym, some nm, some pr, some ch⟩ t1).2
        ⟨some sym, some nm, some pr, some ch⟩ t2).2 =
        updateFirst st sym
          (fun p => { p with price := some pr, change := some ch, lastUpdated := t2 }) := by
      rw [h1]
      have hcomp :
          updateFirst (updateFirst st sym
            (fun p => { p with price := some pr, change := some ch, lastUpdated := t1 })) sym
            (fun p => { p with price := some pr, change := some ch, lastUpdated := t2 }) =
          updateFirst st sym
            (fun p => { p with price := some pr, change := some ch, lastUpdated := t2 }) :=
        (updateFirst_updateFirst st sym
          (fun p => { p with price := some pr, change := some ch, lastUpdated := t1 })
          (fun p => { p with price := some pr, change := some ch, lastUpdated := t2 }) (fun p => rfl)).trans rfl
      rw [← hcomp]
      simp [postHandler, truthy, hsym, hnm, hfind1]
    refine ⟨?_, ?_, ?_⟩
    · rw [h2]
      simp [postHandler, truthy, hsym, hnm, hf]
    · rw [h1]
      simp [postHandler, truthy, hsym, hnm, hfind1]
    · rw [h2, countSymbol_updateFirst st sym sym
        (fun p => { p with price := some pr, change := some ch, lastUpdated := t2 }) (fun p => rfl), hcnt1]
  | none =>
    have hcnt0 : countSymbol st sym = 0 :=
      (findOneSymbol_eq_none_iff_count st sym).mp hf
    have h1 : (postHandler st ⟨some sym, some nm, some pr, some ch⟩ t1).2 =
        st ++ [⟨sym, some nm, some pr, some ch, t1⟩] := by
      simp [postHandler, truthy, hsym, hnm, hf]
    have hfind1 : findOneSymbol (st ++ [⟨sym, some nm, some pr, some ch, t1⟩]) sym
        = some ⟨sym, some nm, some pr, some ch, t1⟩ := by
      rw [findOneSymbol_append st sym _ hf]
      simp
    have h2 : (postHandler (postHandler st ⟨some sym, some nm, some pr, some ch⟩ t1).2
        ⟨some sym, some nm, some pr, some ch⟩ t2).2 =
        st ++ [⟨sym, some nm, some pr, some ch, t2⟩] := by
      rw [h1]
      have happ := updateFirst_append_absent st sym ⟨sym, some nm, some pr, some ch, t1⟩
        (fun p => { p with price := some pr, change := some ch, lastUpdated := t2 }) hf rfl
      simp only [postHandler, truthy, hsym, hnm, hfind1]
      simp [truthy, hsym, hnm, hfind1, happ]
    refine ⟨?_, ?_, ?_⟩
    · rw [h2]
      simp [postHandler, truthy, hsym, hnm, hf]
    · rw [h1]
      simp [postHandler, truthy, hsym, hnm, hfind1]
    · rw [h2, countSymbol_append_same st _ sym rfl, hcnt0]

def c6Store : Store := []

/-- Concrete instantiation of `C6_idempotent` on the empty store: the double
POST equals the single POST at the second timestamp, replies 200, and leaves
one AAPL record. -/
theorem C6_idempotent_witness :
    (postHandler (postHandler c6Store ⟨some "AAPL", some "Apple", some 150, some 2⟩ 1).2
        ⟨some "AAPL", some "Apple", some 150, some 2⟩ 2).2 =
      (postHandler c6Store ⟨some "AAPL", some "Apple", some 150, some 2⟩ 2).2 ∧
    (postHandler (postHandler c6Store ⟨some "AAPL", some "Apple", some 150, some 2⟩ 1).2
        ⟨some "AAPL", some "Apple", some 150, some 2⟩ 2).1.status = 200 ∧
    countSymbol
      (postHandler (postHandler c6Store ⟨some "AAPL", some "Apple", some 150, some 2⟩ 1).2
        ⟨some "AAPL", some "Apple", some 150, some 2⟩ 2).2 "AAPL" = 1 :=
  C6_idempotent c6Store "AAPL" "Apple" 150 2 1 2 (by decide) (by decide) (by decide)

end StockServer
